import Mathlib

/-!
# bobuild client: URL construction, single fetch, paginated fetch, POST

A shallow embedding of `client.go`.

* Go strings are Lean `String`s; `+` is `++`.
* `(*K, error)` results are `Except String K`: every `return nil, err` of the source is
  `.error msg`, with `msg` the text of the Go error.
* The Go standard library is outside the repository.  `net/http` is a parameter (`Env`):
  which requests `http.NewRequest` rejects, and what `(*http.Client).Do` answers for a
  given client value and request.  `encoding/json` decoding of a value of the result type
  is a parameter too (`Unmarshal`), behind the one check of `json.Unmarshal` that does not
  depend on the result type: input without any JSON value is an error.
* `GetList` loops for as long as the server keeps the item count below the total, so its
  model takes a bound on the number of loop iterations and answers `none` when the loop is
  still running at the bound.  It also records the endpoints handed to `Get`, in order.
  The requests of one run differ in their page number, and a server is taken as a function
  from the request to the response.
* `page`, `len(items)` and `Total` are Go `int`s; they are `Nat`, `Nat` and `Int` here, and
  no run of a realistic length reaches the 64-bit bounds.
-/

namespace Bobuild

/-! ## Strings -/

/-- Go `strings.HasPrefix(s, p)`. -/
def HasPrefix (s p : String) : Bool :=
  p.data.isPrefixOf s.data

/-- Number of non-overlapping occurrences of the non-empty `sep` in `s`, scanning from the
left as Go `strings.Count` does. -/
def countFrom (sep : List Char) : Nat → List Char → Nat
  | 0, _ => 0
  | _ + 1, [] => 0
  | fuel + 1, c :: cs =>
    if sep.isPrefixOf (c :: cs) then 1 + countFrom sep fuel ((c :: cs).drop sep.length)
    else countFrom sep fuel cs

/-- Go `strings.Count(s, sep)` for a non-empty `sep`. -/
def Count (s sep : String) : Nat :=
  countFrom sep.data s.data.length s.data

/-- Go `strings.Contains(s, sub)`. -/
def Contains (s sub : String) : Bool :=
  s.data.tails.any (fun t => sub.data.isPrefixOf t)

/-- Go `strconv.Itoa` on a non-negative `int`. -/
def Itoa (n : Nat) : String :=
  Nat.repr n

/-! ## The HTTP and JSON libraries -/

/-- The part of `http.Client` the source sets: the `Timeout` field, in nanoseconds;
`0` is no timeout. -/
structure HttpClient where
  Timeout : Nat
  deriving DecidableEq

/-- Go `http.DefaultClient`, which is `&http.Client{}`. -/
def DefaultClient : HttpClient :=
  { Timeout := 0 }

/-- Go `time.Second`, in nanoseconds. -/
def Second : Nat := 1000000000

/-- An `http.Request` as the source builds it. -/
structure Request where
  Method : String
  URL : String
  Header : List (String × String)
  Body : Option String
  deriving DecidableEq

/-- Go `req.Header.Set(key, value)`: the value replaces what the key held. -/
def Request.setHeader (req : Request) (key value : String) : Request :=
  { req with Header := req.Header.filter (fun kv => kv.1 != key) ++ [(key, value)] }

/-- An `http.Response` as the source reads it: the status code, the status line, and what
`io.ReadAll(resp.Body)` gives (the bytes, or a read error). -/
structure Response where
  StatusCode : Nat
  Status : String
  Body : Except String String

/-- Go `http.StatusOK`. -/
def StatusOK : Nat := 200

/-- The `net/http` library and the network behind it. -/
structure Env where
  /-- The error with which `http.NewRequest(method, url, _)` rejects a method or a URL. -/
  rejects : String → String → Option String
  /-- What `client.Do(req)` returns: a transport error or the response. -/
  Do : HttpClient → Request → Except String Response

/-- Go `http.NewRequest(method, url, body)`. -/
def Env.NewRequest (env : Env) (method url : String) (body : Option String) :
    Except String Request :=
  match env.rejects method url with
  | some err => .error err
  | none => .ok { Method := method, URL := url, Header := [], Body := body }

/-- JSON insignificant whitespace. -/
def isJSONSpace (ch : Char) : Bool :=
  ch == ' ' || ch == '\t' || ch == '\r' || ch == '\n'

/-- Go `json.Unmarshal(data, &v)`: data holding no JSON value at all is the error
"unexpected end of JSON input"; anything else is decoded for the type of `v` by
`Unmarshal`. -/
def jsonUnmarshal {K : Type} (Unmarshal : String → Except String K) (data : String) :
    Except String K :=
  if data.data.all isJSONSpace then .error "unexpected end of JSON input"
  else Unmarshal data

/-! ## The client -/

/-- The `Client` struct. -/
structure Client where
  Domain : String
  APIKey : String
  HTTPClient : HttpClient
  UseTLS : Bool
  deriving DecidableEq

/-- The constructor `NewClient`. -/
def NewClient (domain apiKey : String) : Client :=
  { Domain := domain
    APIKey := apiKey
    HTTPClient := { Timeout := 10 * Second }
    UseTLS := true }

/-- The method `(*Client).makeURL`. -/
def Client.makeURL (c : Client) (endpoint : String) : String :=
  let baseURL :=
    if HasPrefix endpoint "http://" || HasPrefix endpoint "https://" then endpoint
    else if c.UseTLS then "https://" ++ c.Domain
    else "http://" ++ c.Domain
  baseURL ++ "/_api" ++ endpoint

/-- The generic function `Get[K]`. -/
def Get {K : Type} (env : Env) (Unmarshal : String → Except String K) (c : Client)
    (endpoint : String) : Except String K :=
  let url := c.makeURL endpoint
  match env.NewRequest "GET" url none with
  | .error err => .error ("error creating HTTP request: " ++ err)
  | .ok req =>
    let req := req.setHeader "Authorization" ("Bearer " ++ c.APIKey)
    match env.Do DefaultClient req with
    | .error err => .error ("error making GET request: " ++ err)
    | .ok resp =>
      if resp.StatusCode ≠ StatusOK then
        .error ("API call failed with status: " ++ resp.Status)
      else
        match resp.Body with
        | .error err => .error ("error reading response body: " ++ err)
        | .ok body =>
          match jsonUnmarshal Unmarshal body with
          | .error err => .error ("error parsing JSON response: " ++ err)
          | .ok apiResponse => .ok apiResponse

/-- The `listResponseType` envelope of `GetList`. -/
structure listResponseType (K : Type) where
  Items : List K
  Total : Int

/-- The endpoint `GetList` builds for a page: `&page=` after an endpoint that holds a
`?`, `?page=` otherwise. -/
def endPointWithPage (endpoint : String) (page : Nat) : String :=
  if Contains endpoint "?" then endpoint ++ "&page=" ++ Itoa page
  else endpoint ++ "?page=" ++ Itoa page

/-- What a run of `GetList` did: the endpoints it passed to `Get`, oldest first, and what
it returned (`none`: the loop was still running when the iteration bound was reached). -/
structure ListRun (K : Type) where
  calls : List String
  result : Option (Except String (List K))

/-- The `for data.Total > len(items)` loop of `GetList`, from the state `page`, `items`,
for at most `fuel` iterations. -/
def GetList.follow {K : Type} (env : Env)
    (Unmarshal : String → Except String (listResponseType K)) (c : Client)
    (endpoint : String) (Total : Int) :
    Nat → Nat → List K → List String → ListRun K
  | 0, _, items, calls =>
    if Total > (items.length : Int) then { calls := calls, result := none }
    else { calls := calls, result := some (.ok items) }
  | fuel + 1, page, items, calls =>
    if Total > (items.length : Int) then
      let page := page + 1
      match Get env Unmarshal c (endPointWithPage endpoint page) with
      | .error err =>
        { calls := calls ++ [endPointWithPage endpoint page], result := some (.error err) }
      | .ok data2 =>
        GetList.follow env Unmarshal c endpoint Total fuel page (items ++ data2.Items)
          (calls ++ [endPointWithPage endpoint page])
    else { calls := calls, result := some (.ok items) }

/-- The generic function `GetList[K]`, with at most `fuel` iterations of its loop. -/
def GetList {K : Type} (fuel : Nat) (env : Env)
    (Unmarshal : String → Except String (listResponseType K)) (c : Client)
    (endpoint : String) : ListRun K :=
  let page := 0
  match Get env Unmarshal c (endPointWithPage endpoint page) with
  | .error err => { calls := [endPointWithPage endpoint page], result := some (.error err) }
  | .ok data =>
    let items := data.Items
    GetList.follow env Unmarshal c endpoint data.Total fuel page items
      [endPointWithPage endpoint page]

/-- The generic function `Post[K]`; `Marshal` is `json.Marshal` on the payload's type. -/
def Post {K P : Type} (env : Env) (Marshal : P → Except String String)
    (Unmarshal : String → Except String K) (c : Client) (endpoint : String)
    (payload : P) : Except String K :=
  match Marshal payload with
  | .error err => .error ("failed to marshal payload: " ++ err)
  | .ok jsonData =>
    match env.NewRequest "POST" (c.makeURL endpoint) (some jsonData) with
    | .error err => .error ("failed to create HTTP request: " ++ err)
    | .ok req =>
      let req := req.setHeader "Content-Type" "application/json"
      let req := req.setHeader "Authorization" ("Bearer " ++ c.APIKey)
      let client : HttpClient := { Timeout := 0 }
      match env.Do client req with
      | .error err => .error ("failed to send HTTP request: " ++ err)
      | .ok resp =>
        match resp.Body with
        | .error err => .error ("error reading response body: " ++ err)
        | .ok body =>
          if resp.StatusCode ≠ StatusOK then
            .error ("API call failed with status: " ++ resp.Status ++ " " ++ body)
          else
            match jsonUnmarshal Unmarshal body with
            | .error err => .error ("error parsing JSON response: " ++ err)
            | .ok apiResponse => .ok apiResponse

/-- The `BobuildInsertResponseType` struct. -/
structure BobuildInsertResponseType where
  Success : Bool
  Error : Bool
  Object : String
  ID : Int
  deriving DecidableEq

/-- The function `Insert`. -/
def Insert {P : Type} (env : Env) (Marshal : P → Except String String)
    (Unmarshal : String → Except String BobuildInsertResponseType) (c : Client)
    (endpoint : String) (payload : P) : Except String BobuildInsertResponseType :=
  match Post env Marshal Unmarshal c endpoint payload with
  | .error err => .error err
  | .ok res => .ok res

/-- Body of page 0 in the example of the specification: item 1 of 3. -/
def page0JSON : String :=
  "\x7b\"items\":[\x7b\"id\":1\x7d],\"total\":3\x7d"

/-- Body of page 1 in the example of the specification: items 2 and 3 of 3. -/
def page1JSON : String :=
  "\x7b\"items\":[\x7b\"id\":2\x7d,\x7b\"id\":3\x7d],\"total\":3\x7d"

/-- Body of a page that holds three items and reports a total of two. -/
def overshootJSON : String :=
  "\x7b\"items\":[\x7b\"id\":1\x7d,\x7b\"id\":2\x7d,\x7b\"id\":3\x7d],\"total\":2\x7d"

/-- Decoding of a list envelope whose items are `id` objects, kept as the ids, on the
bodies above. -/
def unmarshalIDs (body : String) : Except String (listResponseType Nat) :=
  if body = page0JSON then .ok { Items := [1], Total := 3 }
  else if body = page1JSON then .ok { Items := [2, 3], Total := 3 }
  else if body = overshootJSON then .ok { Items := [1, 2, 3], Total := 2 }
  else .error "invalid character"

/-- The mock server of the specification's example behind `https://api.example.com`,
for the list `/things`: pages 0 and 1 as above, 404 for anything else. -/
def listEnv : Env where
  rejects := fun _ _ => none
  Do := fun _ req =>
    if req.URL = "https://api.example.com/_api/things?page=0" then
      .ok { StatusCode := 200, Status := "200 OK", Body := .ok page0JSON }
    else if req.URL = "https://api.example.com/_api/things?page=1" then
      .ok { StatusCode := 200, Status := "200 OK", Body := .ok page1JSON }
    else .ok { StatusCode := 404, Status := "404 Not Found", Body := .ok "404 page not found\n" }

/-- The same list behind a server that breaks after page 0: any other request is answered
with status 500. -/
def brokenEnv : Env where
  rejects := fun _ _ => none
  Do := fun _ req =>
    if req.URL = "https://api.example.com/_api/things?page=0" then
      .ok { StatusCode := 200, Status := "200 OK", Body := .ok page0JSON }
    else .ok { StatusCode := 500, Status := "500 Internal Server Error", Body := .ok "oops" }

/-- A server that answers every request with three items and a total of two. -/
def overshootEnv : Env where
  rejects := fun _ _ => none
  Do := fun _ _ => .ok { StatusCode := 200, Status := "200 OK", Body := .ok overshootJSON }

/-! ## Pages as the client sees them -/

/-- The items `Get` decodes from page `n` of `endpoint`; no items when that fetch fails. -/
def pageItems {K : Type} (env : Env)
    (Unmarshal : String → Except String (listResponseType K)) (c : Client)
    (endpoint : String) (n : Nat) : List K :=
  match Get env Unmarshal c (endPointWithPage endpoint n) with
  | .ok data => data.Items
  | .error _ => []

/-- The items of pages `0..n`, in page order. -/
def accumulated {K : Type} (env : Env)
    (Unmarshal : String → Except String (listResponseType K)) (c : Client)
    (endpoint : String) : Nat → List K
  | 0 => pageItems env Unmarshal c endpoint 0
  | n + 1 => accumulated env Unmarshal c endpoint n ++ pageItems env Unmarshal c endpoint (n + 1)

/-! ## Servers of the tests and of the examples -/

/-- The `testUser` struct of the tests. -/
structure testUser where
  ID : String
  Name : String
  Email : String
  deriving DecidableEq

/-- The `mockUser` of `TestGetUser`. -/
def mockUser : testUser :=
  { ID := "123", Name := "Alice", Email := "alice@example.com" }

/-- What `json.NewEncoder(w).Encode(mockUser)` writes. -/
def mockUserJSON : String :=
  "\x7b\"id\":\"123\",\"name\":\"Alice\",\"email\":\"alice@example.com\"\x7d\n"

/-- Decoding of a `testUser`, on the one body the test server sends. -/
def unmarshalTestUser (body : String) : Except String testUser :=
  if body = mockUserJSON then .ok mockUser
  else .error "json: cannot unmarshal into Go value of type bobuild.testUser"

/-- The network of `TestGetUser` with its server at `http://127.0.0.1:8080`: the handler
answers path `/_api/users/123` with the user and any other path with 404; there is no
host to connect to behind any other URL. -/
def testGetUserEnv : Env where
  rejects := fun _ _ => none
  Do := fun _ req =>
    if req.URL = "http://127.0.0.1:8080/_api/users/123" then
      .ok { StatusCode := 200, Status := "200 OK", Body := .ok mockUserJSON }
    else if HasPrefix req.URL "http://127.0.0.1:8080/" then
      .ok { StatusCode := 404, Status := "404 Not Found", Body := .ok "404 page not found\n" }
    else .error "dial tcp: lookup http: no such host"

/-- The `inputUser` of `TestCreateUser`. -/
def inputUser : testUser :=
  { ID := "", Name := "Bob", Email := "bob@example.com" }

/-- Encoding of a `testUser` by `json.Marshal`, on the `inputUser` of the test. -/
def marshalTestUser (u : testUser) : Except String String :=
  if u = inputUser then
    .ok "\x7b\"id\":\"\",\"name\":\"Bob\",\"email\":\"bob@example.com\"\x7d"
  else .error "json: unsupported value"

/-- Decoding of a `BobuildInsertResponseType`, on one well-formed envelope. -/
def unmarshalInsert (body : String) : Except String BobuildInsertResponseType :=
  if body = "\x7b\"success\":true,\"error\":false,\"object\":\"user\",\"id\":7\x7d" then
    .ok { Success := true, Error := false, Object := "user", ID := 7 }
  else .error "invalid character"

/-- The handler of `TestCreateUser` behind `https://api.example.com`: a POST to
`/_api/insert` is answered with status 200, a content type and no body; anything else
with 404. -/
def testCreateUserEnv : Env where
  rejects := fun _ _ => none
  Do := fun _ req =>
    if req.Method = "POST" ∧ req.URL = "https://api.example.com/_api/insert" then
      .ok { StatusCode := 200, Status := "200 OK", Body := .ok "" }
    else .ok { StatusCode := 404, Status := "404 Not Found", Body := .ok "404 page not found\n" }

/-- A server that takes longer to answer than any timeout a client may set: a client
without timeout gets the answer `1`, a client with a timeout gives up. -/
def slowEnv : Env where
  rejects := fun _ _ => none
  Do := fun client _ =>
    if client.Timeout = 0 then .ok { StatusCode := 200, Status := "200 OK", Body := .ok "1" }
    else .error "context deadline exceeded (Client.Timeout exceeded while awaiting headers)"

/-- Decoding of a JSON number into a natural number, on the bodies `0`, `1`, `2`. -/
def unmarshalNat (body : String) : Except String Nat :=
  if body = "0" then .ok 0
  else if body = "1" then .ok 1
  else if body = "2" then .ok 2
  else .error "invalid character"

/-- Encoding of a natural number by `json.Marshal`. -/
def marshalNat (n : Nat) : Except String String :=
  .ok (Nat.repr n)

/-! ## URL construction -/

theorem hasPrefix_iff (s p : String) : HasPrefix s p = true ↔ ∃ r : String, s = p ++ r := by
  unfold HasPrefix
  rw [List.isPrefixOf_iff_prefix]
  constructor
  · rintro ⟨t, ht⟩
    exact ⟨⟨t⟩, String.ext (by rw [String.data_append, ht])⟩
  · rintro ⟨r, rfl⟩
    exact ⟨r.data, by rw [String.data_append]⟩

/-- C1: `makeURL c e` is `base ++ "/_api" ++ e`, where `base` is `e` itself when `e` begins with
`http://` or `https://`, and otherwise `https://` or `http://` (as `c.UseTLS` is true or
false) followed by `c.Domain`. -/
theorem makeURL_base (c : Client) (e : String) :
    ∃ base : String, c.makeURL e = base ++ "/_api" ++ e ∧
      (((∃ r : String, e = "http://" ++ r) ∨ (∃ r : String, e = "https://" ++ r)) →
        base = e) ∧
      (¬ ((∃ r : String, e = "http://" ++ r) ∨ (∃ r : String, e = "https://" ++ r)) →
        (c.UseTLS = true → base = "https://" ++ c.Domain) ∧
        (c.UseTLS = false → base = "http://" ++ c.Domain)) := by
  simp only [← hasPrefix_iff]
  unfold Client.makeURL
  by_cases h : (HasPrefix e "http://" || HasPrefix e "https://") = true
  · refine ⟨e, by simp only [h, if_true], fun _ => rfl, fun hn => ?_⟩
    simp only [Bool.or_eq_true] at h
    exact absurd h hn
  · cases hT : c.UseTLS
    · refine ⟨"http://" ++ c.Domain, by simp [h], fun ha => ?_, fun _ => ⟨by simp, fun _ => rfl⟩⟩
      simp only [Bool.or_eq_true] at h
      exact absurd ha h
    · refine ⟨"https://" ++ c.Domain, by simp [h], fun ha => ?_, fun _ => ⟨fun _ => rfl, by simp⟩⟩
      simp only [Bool.or_eq_true] at h
      exact absurd ha h

/-- Witness for C1: a relative endpoint on a TLS client, the branch that synthesizes the
base from the domain. -/
theorem makeURL_base_witness :
    ∃ base : String, (NewClient "api.example.com" "key").makeURL "/users/123"
        = base ++ "/_api" ++ "/users/123" ∧
      (((∃ r : String, "/users/123" = "http://" ++ r) ∨
          (∃ r : String, "/users/123" = "https://" ++ r)) → base = "/users/123") ∧
      (¬ ((∃ r : String, "/users/123" = "http://" ++ r) ∨
          (∃ r : String, "/users/123" = "https://" ++ r)) →
        ((NewClient "api.example.com" "key").UseTLS = true →
          base = "https://" ++ (NewClient "api.example.com" "key").Domain) ∧
        ((NewClient "api.example.com" "key").UseTLS = false →
          base = "http://" ++ (NewClient "api.example.com" "key").Domain)) :=
  makeURL_base (NewClient "api.example.com" "key") "/users/123"

/-- C2: at the absolute endpoint `http://h/x`, which holds `://` once, `makeURL` returns
the endpoint, `/_api`, and the endpoint again: the result holds `://` twice. -/
theorem makeURL_absolute_repeated (c : Client) :
    HasPrefix "http://h/x" "http://" = true ∧
    Count "http://h/x" "://" = 1 ∧
    c.makeURL "http://h/x" = "http://h/x/_apihttp://h/x" ∧
    Count (c.makeURL "http://h/x") "://" = 2 := by
  have h : c.makeURL "http://h/x" = "http://h/x/_apihttp://h/x" := by
    unfold Client.makeURL
    rw [if_pos (by decide)]
    decide
  refine ⟨by decide, by decide, h, ?_⟩
  rw [h]
  decide

/-- C8: built by `NewClient` on the base URL of the test server of `TestGetUser`, the
client requests `https://` followed by that base URL, not the base URL followed by `/_api`
and the endpoint; the request does not reach the server, which would have served the user
at the URL the test means, and `Get` returns an error. -/
theorem makeURL_newClient_serverURL :
    HasPrefix "/users/123" "http://" = false ∧ HasPrefix "/users/123" "https://" = false ∧
    (NewClient "http://127.0.0.1:8080" "test-api-key").makeURL "/users/123"
      = "https://http://127.0.0.1:8080/_api/users/123" ∧
    (NewClient "http://127.0.0.1:8080" "test-api-key").makeURL "/users/123"
      ≠ "http://127.0.0.1:8080" ++ "/_api" ++ "/users/123" ∧
    testGetUserEnv.Do DefaultClient
        { Method := "GET", URL := "http://127.0.0.1:8080" ++ "/_api" ++ "/users/123",
          Header := [("Authorization", "Bearer test-api-key")], Body := none }
      = .ok { StatusCode := 200, Status := "200 OK", Body := .ok mockUserJSON } ∧
    Get testGetUserEnv unmarshalTestUser (NewClient "http://127.0.0.1:8080" "test-api-key")
        "/users/123"
      = .error "error making GET request: dial tcp: lookup http: no such host" := by
  refine ⟨by decide, by decide, by decide, by decide, rfl, rfl⟩

/-! ## Empty body of a 200 response -/

/-- C7: the handler of `TestCreateUser` answers the POST to `/_api/insert` with status 200
and an empty body; `Insert` then returns the JSON parse error, not a result. -/
theorem insert_empty_body_fails :
    testCreateUserEnv.Do { Timeout := 0 }
        { Method := "POST", URL := "https://api.example.com/_api/insert",
          Header := [("Content-Type", "application/json"),
                     ("Authorization", "Bearer test-api-key")],
          Body := some "\x7b\"id\":\"\",\"name\":\"Bob\",\"email\":\"bob@example.com\"\x7d" }
      = .ok { StatusCode := 200, Status := "200 OK", Body := .ok "" } ∧
    Insert testCreateUserEnv marshalTestUser unmarshalInsert
        (NewClient "api.example.com" "test-api-key") "/insert" inputUser
      = .error "error parsing JSON response: unexpected end of JSON input" := by
  constructor <;> rfl

/-! ## The transport of a request -/

theorem get_congr_env {K : Type} (env env' : Env) (U : String → Except String K)
    (c c' : Client) (e : String) (hr : env'.rejects = env.rejects)
    (hd : env'.Do DefaultClient = env.Do DefaultClient)
    (hD : c'.Domain = c.Domain) (hK : c'.APIKey = c.APIKey) (hT : c'.UseTLS = c.UseTLS) :
    Get env' U c' e = Get env U c e := by
  simp only [Get, Env.NewRequest, Client.makeURL, hr, hd, hD, hK, hT]

theorem post_congr_env {K P : Type} (env env' : Env) (M : P → Except String String)
    (U : String → Except String K) (c c' : Client) (e : String) (p : P)
    (hr : env'.rejects = env.rejects)
    (hd : env'.Do { Timeout := 0 } = env.Do { Timeout := 0 })
    (hD : c'.Domain = c.Domain) (hK : c'.APIKey = c.APIKey) (hT : c'.UseTLS = c.UseTLS) :
    Post env' M U c' e p = Post env M U c e p := by
  simp only [Post, Env.NewRequest, Client.makeURL, hr, hd, hD, hK, hT]

/-- The outcome of `Get` and of `Post` is fixed by what a client without timeout gets from
the network; the `HTTPClient` field of the client has no part in it. -/
theorem get_post_ignore_HTTPClient {K P : Type} (env env' : Env)
    (M : P → Except String String) (U : String → Except String K) (c : Client)
    (h : HttpClient) (e : String) (p : P)
    (hr : env'.rejects = env.rejects)
    (hd : env'.Do { Timeout := 0 } = env.Do { Timeout := 0 }) :
    Get env' U { c with HTTPClient := h } e = Get env U c e ∧
    Post env' M U { c with HTTPClient := h } e p = Post env M U c e p :=
  ⟨get_congr_env env env' U c _ e hr hd rfl rfl rfl,
   post_congr_env env env' M U c _ e p hr hd rfl rfl rfl⟩

/-- C9: `NewClient` gives the client an `HTTPClient` with a timeout of ten seconds, and
against a server slower than that every request sent through this `HTTPClient` fails
with the timeout error; yet `Get` and `Post` on that client wait for the answer and
return it: their requests do not go through the `HTTPClient` of the client, and its
timeout bounds neither round trip. -/
theorem get_post_not_through_HTTPClient :
    (NewClient "api.example.com" "key").HTTPClient = { Timeout := 10 * Second } ∧
    (∀ req, slowEnv.Do (NewClient "api.example.com" "key").HTTPClient req
      = .error "context deadline exceeded (Client.Timeout exceeded while awaiting headers)") ∧
    Get slowEnv unmarshalNat (NewClient "api.example.com" "key") "/n" = .ok 1 ∧
    Post slowEnv marshalNat unmarshalNat (NewClient "api.example.com" "key") "/n" 5 = .ok 1 :=
  ⟨rfl, fun _ => rfl, rfl, rfl⟩

/-! ## Status errors of `Get` -/

theorem get_status_error {K : Type} (env : Env) (U : String → Except String K) (c : Client)
    (e : String) (resp : Response)
    (hr : env.rejects "GET" (c.makeURL e) = none)
    (hd : env.Do DefaultClient
        { Method := "GET", URL := c.makeURL e,
          Header := [("Authorization", "Bearer " ++ c.APIKey)], Body := none } = .ok resp)
    (hs : resp.StatusCode ≠ 200) :
    Get env U c e = .error ("API call failed with status: " ++ resp.Status) := by
  have hd' : env.Do DefaultClient
      (Request.setHeader { Method := "GET", URL := c.makeURL e, Header := [], Body := none }
        "Authorization" ("Bearer " ++ c.APIKey)) = .ok resp := hd
  simp only [Get, Env.NewRequest, hr, hd', StatusOK, ne_eq, hs, not_false_eq_true, if_true]

/-! ## The loop of `GetList` -/

section Loop

variable {K : Type} (env : Env) (U : String → Except String (listResponseType K))
  (c : Client) (e : String) (T : Int)

theorem follow_done (fuel page : Nat) (items : List K) (calls : List String)
    (h : ¬ T > (items.length : Int)) :
    GetList.follow env U c e T fuel page items calls
      = { calls := calls, result := some (.ok items) } := by
  cases fuel <;> simp only [GetList.follow, h, if_false]

theorem follow_step_error (fuel page : Nat) (items : List K) (calls : List String)
    (err : String) (h : T > (items.length : Int))
    (hg : Get env U c (endPointWithPage e (page + 1)) = .error err) :
    GetList.follow env U c e T (fuel + 1) page items calls
      = { calls := calls ++ [endPointWithPage e (page + 1)], result := some (.error err) } := by
  simp only [GetList.follow, h, if_true, hg]

theorem follow_step_ok (fuel page : Nat) (items : List K) (calls : List String)
    (d : listResponseType K) (h : T > (items.length : Int))
    (hg : Get env U c (endPointWithPage e (page + 1)) = .ok d) :
    GetList.follow env U c e T (fuel + 1) page items calls
      = GetList.follow env U c e T fuel (page + 1) (items ++ d.Items)
          (calls ++ [endPointWithPage e (page + 1)]) := by
  simp only [GetList.follow, h, if_true, hg]

theorem follow_stuck (page : Nat) (items : List K) (calls : List String)
    (h : T > (items.length : Int)) :
    GetList.follow env U c e T 0 page items calls = { calls := calls, result := none } := by
  simp only [GetList.follow, h, if_true]

/-- A call the loop adds and that fails is the last one: the loop returns its error. -/
theorem follow_error_of_mem (fuel : Nat) :
    ∀ (page : Nat) (items : List K) (calls : List String) (x err : String),
      x ∈ (GetList.follow env U c e T fuel page items calls).calls → x ∉ calls →
      Get env U c x = .error err →
      (GetList.follow env U c e T fuel page items calls).result = some (.error err) := by
  induction fuel with
  | zero =>
    intro page items calls x err hx hn _
    by_cases hT : T > (items.length : Int)
    · rw [follow_stuck env U c e T page items calls hT] at hx
      exact absurd hx hn
    · rw [follow_done env U c e T 0 page items calls hT] at hx
      exact absurd hx hn
  | succ fuel ih =>
    intro page items calls x err hx hn hg
    by_cases hT : T > (items.length : Int)
    · cases hget : Get env U c (endPointWithPage e (page + 1)) with
      | error err0 =>
        rw [follow_step_error env U c e T fuel page items calls err0 hT hget] at hx ⊢
        simp only [List.mem_append, List.mem_singleton] at hx
        rcases hx with hx | hx
        · exact absurd hx hn
        · rw [hx, hget] at hg
          cases hg
          rfl
      | ok d =>
        rw [follow_step_ok env U c e T fuel page items calls d hT hget] at hx ⊢
        by_cases hmem : x ∈ calls ++ [endPointWithPage e (page + 1)]
        · simp only [List.mem_append, List.mem_singleton] at hmem
          rcases hmem with hmem | hmem
          · exact absurd hmem hn
          · rw [hmem, hget] at hg
            cases hg
        · exact ih _ _ _ x err hx hmem hg
    · rw [follow_done env U c e T (fuel + 1) page items calls hT] at hx
      exact absurd hx hn

theorem accumulated_succ_of_ok (page : Nat) (d : listResponseType K)
    (hg : Get env U c (endPointWithPage e (page + 1)) = .ok d) :
    accumulated env U c e (page + 1) = accumulated env U c e page ++ d.Items := by
  simp only [accumulated, pageItems, hg]

theorem accumulated_length_mono (i j : Nat) (h : i ≤ j) :
    (accumulated env U c e i).length ≤ (accumulated env U c e j).length := by
  induction j with
  | zero =>
    have : i = 0 := by omega
    subst this
    exact le_refl _
  | succ j ih =>
    by_cases hij : i = j + 1
    · subst hij
      exact le_refl _
    · have := ih (by omega)
      simp only [accumulated, List.length_append]
      omega

/-- The loop, entered with the items of pages `0..page`, returns a list only as the items
of pages `0..k` for the least `k ≥ page` at which the count reaches `T`, having called
`Get` on the pages after `page` up to `k`, in order, each with success. -/
theorem follow_ok (fuel : Nat) :
    ∀ (page : Nat) (calls : List String) (out : List K),
      (GetList.follow env U c e T fuel page (accumulated env U c e page) calls).result
        = some (.ok out) →
      ∃ k, page ≤ k ∧
        (GetList.follow env U c e T fuel page (accumulated env U c e page) calls).calls
          = calls ++ (List.range' (page + 1) (k - page)).map (endPointWithPage e) ∧
        (∀ i, page < i → i ≤ k → ∃ d, Get env U c (endPointWithPage e i) = .ok d) ∧
        out = accumulated env U c e k ∧
        ¬ T > ((accumulated env U c e k).length : Int) ∧
        ∀ j, page ≤ j → j < k → T > ((accumulated env U c e j).length : Int) := by
  induction fuel with
  | zero =>
    intro page calls out h
    by_cases hT : T > ((accumulated env U c e page).length : Int)
    · rw [follow_stuck env U c e T page _ calls hT] at h
      cases h
    · rw [follow_done env U c e T 0 page _ calls hT] at h ⊢
      refine ⟨page, le_refl _, by simp, fun i h1 h2 => absurd h1 (by omega), ?_, hT,
        fun j h1 h2 => absurd h1 (by omega)⟩
      simp only [Option.some.injEq, Except.ok.injEq] at h
      exact h.symm
  | succ fuel ih =>
    intro page calls out h
    by_cases hT : T > ((accumulated env U c e page).length : Int)
    · cases hget : Get env U c (endPointWithPage e (page + 1)) with
      | error err0 =>
        rw [follow_step_error env U c e T fuel page _ calls err0 hT hget] at h
        simp only [Option.some.injEq] at h
        cases h
      | ok d =>
        rw [follow_step_ok env U c e T fuel page _ calls d hT hget] at h ⊢
        rw [← accumulated_succ_of_ok env U c e page d hget] at h ⊢
        obtain ⟨k, hk, hcalls, hall, hout, hstop, hmin⟩ := ih (page + 1) _ out h
        refine ⟨k, by omega, ?_, ?_, hout, hstop, ?_⟩
        · rw [hcalls]
          have hkp : k - page = (k - (page + 1)) + 1 := by omega
          rw [hkp, List.range'_succ]
          simp
        · intro i h1 h2
          by_cases hi : i = page + 1
          · subst hi
            exact ⟨d, hget⟩
          · exact hall i (by omega) h2
        · intro j h1 h2
          by_cases hj : j = page
          · subst hj
            exact hT
          · exact hmin j (by omega) h2
    · rw [follow_done env U c e T (fuel + 1) page _ calls hT] at h ⊢
      refine ⟨page, le_refl _, by simp, fun i h1 h2 => absurd h1 (by omega), ?_, hT,
        fun j h1 h2 => absurd h1 (by omega)⟩
      simp only [Option.some.injEq, Except.ok.injEq] at h
      exact h.symm

/-- More iterations do not change a run that has returned. -/
theorem follow_mono (fuel : Nat) :
    ∀ (page : Nat) (items : List K) (calls : List String) (r : Except String (List K)),
      (GetList.follow env U c e T fuel page items calls).result = some r →
      ∀ fuel', fuel ≤ fuel' →
        GetList.follow env U c e T fuel' page items calls
          = GetList.follow env U c e T fuel page items calls := by
  induction fuel with
  | zero =>
    intro page items calls r h fuel' _
    by_cases hT : T > (items.length : Int)
    · rw [follow_stuck env U c e T page items calls hT] at h
      cases h
    · rw [follow_done env U c e T 0 page items calls hT,
        follow_done env U c e T fuel' page items calls hT]
  | succ fuel ih =>
    intro page items calls r h fuel' hle
    obtain ⟨f, rfl⟩ : ∃ f, fuel' = f + 1 := ⟨fuel' - 1, by omega⟩
    by_cases hT : T > (items.length : Int)
    · cases hget : Get env U c (endPointWithPage e (page + 1)) with
      | error err0 =>
        rw [follow_step_error env U c e T fuel page items calls err0 hT hget,
          follow_step_error env U c e T f page items calls err0 hT hget]
      | ok d =>
        rw [follow_step_ok env U c e T fuel page items calls d hT hget] at h ⊢
        rw [follow_step_ok env U c e T f page items calls d hT hget]
        exact ih _ _ _ r h f (by omega)
    · rw [follow_done env U c e T (fuel + 1) page items calls hT,
        follow_done env U c e T (f + 1) page items calls hT]

/-- With no empty page after page 0, the loop returns within `T - len(items)` iterations,
and as many calls at most. -/
theorem follow_terminates
    (hne : ∀ n, 1 ≤ n → ∀ d, Get env U c (endPointWithPage e n) = .ok d → d.Items ≠ [])
    (fuel : Nat) :
    ∀ (page : Nat) (items : List K) (calls : List String),
      (T - (items.length : Int)).toNat ≤ fuel →
      (∃ r, (GetList.follow env U c e T fuel page items calls).result = some r) ∧
      (GetList.follow env U c e T fuel page items calls).calls.length
        ≤ calls.length + (T - (items.length : Int)).toNat := by
  induction fuel with
  | zero =>
    intro page items calls hf
    have hT : ¬ T > (items.length : Int) := by omega
    rw [follow_done env U c e T 0 page items calls hT]
    exact ⟨⟨_, rfl⟩, by simp⟩
  | succ fuel ih =>
    intro page items calls hf
    by_cases hT : T > (items.length : Int)
    · cases hget : Get env U c (endPointWithPage e (page + 1)) with
      | error err0 =>
        rw [follow_step_error env U c e T fuel page items calls err0 hT hget]
        refine ⟨⟨_, rfl⟩, ?_⟩
        simp only [List.length_append, List.length_singleton]
        omega
      | ok d =>
        rw [follow_step_ok env U c e T fuel page items calls d hT hget]
        have hd : d.Items ≠ [] := hne (page + 1) (by omega) d hget
        have hlen : 0 < d.Items.length := List.length_pos.mpr hd
        have hf' : (T - ((items ++ d.Items).length : Int)).toNat ≤ fuel := by
          simp only [List.length_append, Nat.cast_add]
          omega
        obtain ⟨hr, hc⟩ := ih (page + 1) (items ++ d.Items)
          (calls ++ [endPointWithPage e (page + 1)]) hf'
        refine ⟨hr, le_trans hc ?_⟩
        simp only [List.length_append, List.length_singleton, Nat.cast_add]
        omega
    · rw [follow_done env U c e T (fuel + 1) page items calls hT]
      exact ⟨⟨_, rfl⟩, by simp⟩

/-- A server that holds the rest of a list as the non-empty pages after `page`: the loop
fetches exactly those pages and returns the whole list. -/
theorem follow_pages (rest : List (List K)) :
    ∀ (fuel page : Nat) (items : List K) (calls : List String),
      (∀ p ∈ rest, p ≠ []) →
      (∀ i (h : i < rest.length), ∃ t,
        Get env U c (endPointWithPage e (page + 1 + i)) = .ok { Items := rest[i], Total := t }) →
      T = ((items ++ rest.flatten).length : Int) →
      rest.length ≤ fuel →
      GetList.follow env U c e T fuel page items calls
        = { calls := calls ++ (List.range' (page + 1) rest.length).map (endPointWithPage e),
            result := some (.ok (items ++ rest.flatten)) } := by
  induction rest with
  | nil =>
    intro fuel page items calls _ _ hT _
    have hT' : ¬ T > (items.length : Int) := by
      simp only [List.flatten_nil, List.append_nil] at hT
      omega
    rw [follow_done env U c e T fuel page items calls hT']
    simp
  | cons p rest ih =>
    intro fuel page items calls hne hget hT hf
    obtain ⟨f, rfl⟩ : ∃ f, fuel = f + 1 := ⟨fuel - 1, by simp at hf; omega⟩
    have hp : p ≠ [] := hne p (List.mem_cons_self _ _)
    have hlen : 0 < p.length := List.length_pos.mpr hp
    have hT' : T > (items.length : Int) := by
      simp only [List.flatten_cons, List.length_append, Nat.cast_add] at hT
      omega
    obtain ⟨t, hg⟩ := hget 0 (by simp)
    simp only [Nat.add_zero, List.getElem_cons_zero] at hg
    rw [follow_step_ok env U c e T f page items calls _ hT' hg]
    rw [ih f (page + 1) (items ++ p) (calls ++ [endPointWithPage e (page + 1)])
      (fun q hq => hne q (List.mem_cons_of_mem _ hq))
      (fun i h => by
        obtain ⟨t', hg'⟩ := hget (i + 1) (by simp; omega)
        refine ⟨t', ?_⟩
        have : page + 1 + (i + 1) = page + 1 + 1 + i := by omega
        rw [this] at hg'
        simpa using hg')
      (by simp only [List.flatten_cons] at hT; simpa using hT)
      (by simp at hf; omega)]
    simp [List.range'_succ]

end Loop

/-! ## The example servers -/

theorem get_listEnv (c : Client) (x : String) (d : listResponseType Nat)
    (h : Get listEnv unmarshalIDs c x = .ok d) :
    d = { Items := [1], Total := 3 } ∨ d = { Items := [2, 3], Total := 3 } := by
  have h0 : jsonUnmarshal unmarshalIDs page0JSON = .ok { Items := [1], Total := 3 } := rfl
  have h1 : jsonUnmarshal unmarshalIDs page1JSON = .ok { Items := [2, 3], Total := 3 } := rfl
  simp only [Get, Env.NewRequest, listEnv, Request.setHeader] at h
  split_ifs at h with ha hb
  · simp only [StatusOK, ne_eq, not_true_eq_false, if_false, h0, Except.ok.injEq] at h
    exact Or.inl h.symm
  · simp only [StatusOK, ne_eq, not_true_eq_false, if_false, h1, Except.ok.injEq] at h
    exact Or.inr h.symm
  · simp [StatusOK] at h

theorem get_overshootEnv (c : Client) (x : String) :
    Get overshootEnv unmarshalIDs c x = .ok { Items := [1, 2, 3], Total := 2 } := by
  have h0 : jsonUnmarshal unmarshalIDs overshootJSON = .ok { Items := [1, 2, 3], Total := 2 } :=
    rfl
  simp only [Get, Env.NewRequest, overshootEnv, StatusOK, ne_eq, not_true_eq_false, if_false, h0]

/-! ## Paginated fetch -/

/-- C3: a server serves the list `pages.flatten` as the consecutive pages `pages`, page 0
first, each fetched with success, each non-empty unless the list is empty, page 0
reporting the length of the list as total.  Then `GetList` returns that list without
error, with one call per page at most. -/
theorem getList_returns_list {K : Type} (env : Env)
    (U : String → Except String (listResponseType K)) (c : Client) (e : String)
    (pages : List (List K)) (fuel : Nat)
    (hp : pages ≠ [])
    (hne : (∀ p ∈ pages, p ≠ []) ∨ pages.flatten = [])
    (hserve : ∀ i (h : i < pages.length), ∃ t : Int,
      Get env U c (endPointWithPage e i) = .ok { Items := pages[i], Total := t } ∧
      (i = 0 → t = (pages.flatten.length : Int)))
    (hf : pages.length ≤ fuel + 1) :
    (GetList fuel env U c e).result = some (.ok pages.flatten) ∧
    (GetList fuel env U c e).calls.length ≤ pages.length := by
  cases pages with
  | nil => exact absurd rfl hp
  | cons p0 rest =>
    obtain ⟨t, hg0, ht⟩ := hserve 0 (by simp)
    have ht0 : t = (((p0 :: rest).flatten.length : Nat) : Int) := ht rfl
    simp only [List.getElem_cons_zero] at hg0
    simp only [GetList, hg0]
    rcases hne with hne | hempty
    · rw [follow_pages env U c e t rest fuel 0 p0 _
        (fun q hq => hne q (List.mem_cons_of_mem _ hq))
        (fun i h => by
          obtain ⟨t', hg', _⟩ := hserve (i + 1) (by simp; omega)
          refine ⟨t', ?_⟩
          have : 0 + 1 + i = i + 1 := by omega
          rw [this]
          simpa using hg')
        (by rw [ht0]; simp)
        (by simp at hf; omega)]
      simp
    · have hp0 : p0 = [] := by
        simp only [List.flatten_cons, List.append_eq_nil] at hempty
        exact hempty.1
      have hT : ¬ t > (p0.length : Int) := by
        rw [ht0, hempty, hp0]
        simp
      rw [follow_done env U c e t fuel 0 p0 _ hT, hempty, hp0]
      simp

/-- Witness for C3: the example of the specification, three items served as a page of one
and a page of two. -/
theorem getList_returns_list_witness :
    ([[1], [2, 3]] : List (List Nat)) ≠ [] ∧
    ((∀ p ∈ ([[1], [2, 3]] : List (List Nat)), p ≠ []) ∨
      ([[1], [2, 3]] : List (List Nat)).flatten = []) ∧
    (∀ i (h : i < ([[1], [2, 3]] : List (List Nat)).length), ∃ t : Int,
      Get listEnv unmarshalIDs (NewClient "api.example.com" "key")
          (endPointWithPage "/things" i)
        = .ok { Items := ([[1], [2, 3]] : List (List Nat))[i], Total := t } ∧
      (i = 0 → t = (([[1], [2, 3]] : List (List Nat)).flatten.length : Int))) ∧
    (GetList 1 listEnv unmarshalIDs (NewClient "api.example.com" "key") "/things").result
      = some (.ok ([[1], [2, 3]] : List (List Nat)).flatten) ∧
    (GetList 1 listEnv unmarshalIDs (NewClient "api.example.com" "key") "/things").calls.length
      ≤ ([[1], [2, 3]] : List (List Nat)).length := by
  have hne : (∀ p ∈ ([[1], [2, 3]] : List (List Nat)), p ≠ []) ∨
      ([[1], [2, 3]] : List (List Nat)).flatten = [] := Or.inl (by decide)
  have hserve : ∀ i (h : i < ([[1], [2, 3]] : List (List Nat)).length), ∃ t : Int,
      Get listEnv unmarshalIDs (NewClient "api.example.com" "key")
          (endPointWithPage "/things" i)
        = .ok { Items := ([[1], [2, 3]] : List (List Nat))[i], Total := t } ∧
      (i = 0 → t = (([[1], [2, 3]] : List (List Nat)).flatten.length : Int)) := by
    intro i h
    have hi : i = 0 ∨ i = 1 := by
      simp only [List.length_cons, List.length_nil] at h
      omega
    rcases hi with rfl | rfl
    · exact ⟨3, rfl, fun _ => rfl⟩
    · exact ⟨3, rfl, fun h0 => absurd h0 (by decide)⟩
  exact ⟨by decide, hne, hserve,
    getList_returns_list listEnv unmarshalIDs (NewClient "api.example.com" "key") "/things"
      [[1], [2, 3]] 1 (by decide) hne hserve (by decide)⟩

/-- C4, as stated, fails: a server that reports the total 2 on every page and serves three
items on page 0; `GetList` returns all three. -/
theorem getList_length_exceeds_total :
    (∀ n d, Get overshootEnv unmarshalIDs (NewClient "api.example.com" "key")
        (endPointWithPage "/things" n) = .ok d → d.Total = 2) ∧
    (GetList 0 overshootEnv unmarshalIDs (NewClient "api.example.com" "key") "/things").result
      = some (.ok [1, 2, 3]) ∧
    (([1, 2, 3] : List Nat).length : Int) ≠ 2 := by
  refine ⟨fun n d h => ?_, rfl, by decide⟩
  rw [get_overshootEnv] at h
  cases h
  rfl

/-- C4, amended: when every page reports the total `T` and `GetList` returns a list, the
list holds at least `T` items; it holds exactly `T` when the item counts of pages `0..k`
sum to exactly `T` for some `k`. -/
theorem getList_length_ge_total {K : Type} (env : Env)
    (U : String → Except String (listResponseType K)) (c : Client) (e : String)
    (fuel : Nat) (T : Int) (out : List K)
    (hT : ∀ n d, Get env U c (endPointWithPage e n) = .ok d → d.Total = T)
    (h : (GetList fuel env U c e).result = some (.ok out)) :
    T ≤ (out.length : Int) ∧
    ((∃ k, ((accumulated env U c e k).length : Int) = T) → (out.length : Int) = T) := by
  cases hg0 : Get env U c (endPointWithPage e 0) with
  | error err =>
    simp only [GetList, hg0, Option.some.injEq] at h
    cases h
  | ok d0 =>
    have hd0 : d0.Total = T := hT 0 d0 hg0
    have hacc : accumulated env U c e 0 = d0.Items := by
      simp only [accumulated, pageItems, hg0]
    simp only [GetList, hg0, hd0] at h
    rw [← hacc] at h
    obtain ⟨k, _, _, _, hout, hstop, hmin⟩ := follow_ok env U c e T fuel 0 _ out h
    subst hout
    refine ⟨by omega, ?_⟩
    rintro ⟨k', hk'⟩
    by_cases hkk : k' < k
    · have := hmin k' (Nat.zero_le _) hkk
      omega
    · have := accumulated_length_mono env U c e k k' (by omega)
      omega

/-- Witness for C4 amended: the example of the specification, total 3 on both pages. -/
theorem getList_length_ge_total_witness :
    (∀ n d, Get listEnv unmarshalIDs (NewClient "api.example.com" "key")
        (endPointWithPage "/things" n) = .ok d → d.Total = 3) ∧
    (GetList 1 listEnv unmarshalIDs (NewClient "api.example.com" "key") "/things").result
      = some (.ok [1, 2, 3]) ∧
    (3 : Int) ≤ (([1, 2, 3] : List Nat).length : Int) ∧
    ((∃ k, ((accumulated listEnv unmarshalIDs (NewClient "api.example.com" "key")
        "/things" k).length : Int) = 3) → (([1, 2, 3] : List Nat).length : Int) = 3) := by
  have hT : ∀ n d, Get listEnv unmarshalIDs (NewClient "api.example.com" "key")
      (endPointWithPage "/things" n) = .ok d → d.Total = 3 := by
    intro n d h
    rcases get_listEnv _ _ d h with rfl | rfl <;> rfl
  exact ⟨hT, rfl,
    getList_length_ge_total listEnv unmarshalIDs (NewClient "api.example.com" "key") "/things"
      1 3 [1, 2, 3] hT rfl⟩

/-- C5: when the response to the GET on endpoint `x` has a status other than 200, `Get`
returns the status error and no result, whatever the body and the decoder; and a run of
`GetList` that requests `x` as one of its pages returns that error and no items. -/
theorem non200_is_error {K K' : Type} (env : Env) (U : String → Except String K)
    (U' : String → Except String (listResponseType K')) (c : Client) (x : String)
    (resp : Response)
    (hr : env.rejects "GET" (c.makeURL x) = none)
    (hd : env.Do DefaultClient
        { Method := "GET", URL := c.makeURL x,
          Header := [("Authorization", "Bearer " ++ c.APIKey)], Body := none } = .ok resp)
    (hs : resp.StatusCode ≠ 200) :
    Get env U c x = .error ("API call failed with status: " ++ resp.Status) ∧
    ∀ (fuel : Nat) (e : String) (n : Nat), endPointWithPage e n = x →
      x ∈ (GetList fuel env U' c e).calls →
      (GetList fuel env U' c e).result
        = some (.error ("API call failed with status: " ++ resp.Status)) := by
  refine ⟨get_status_error env U c x resp hr hd hs, ?_⟩
  intro fuel e n _ hmem
  have hx := get_status_error env U' c x resp hr hd hs
  cases hg0 : Get env U' c (endPointWithPage e 0) with
  | error err =>
    simp only [GetList, hg0, List.mem_singleton] at hmem ⊢
    rw [hmem, hg0] at hx
    cases hx
    rfl
  | ok d0 =>
    simp only [GetList, hg0] at hmem ⊢
    refine follow_error_of_mem env U' c e d0.Total fuel 0 d0.Items _ x _ hmem ?_ hx
    intro h0
    rw [List.mem_singleton] at h0
    rw [h0, hg0] at hx
    cases hx

/-- Witness for C5: the server that breaks after page 0; page 1 is answered with 500. -/
theorem non200_is_error_witness :
    brokenEnv.rejects "GET"
        ((NewClient "api.example.com" "key").makeURL "/things?page=1") = none ∧
    brokenEnv.Do DefaultClient
        { Method := "GET",
          URL := (NewClient "api.example.com" "key").makeURL "/things?page=1",
          Header := [("Authorization", "Bearer " ++ (NewClient "api.example.com" "key").APIKey)],
          Body := none }
      = .ok { StatusCode := 500, Status := "500 Internal Server Error", Body := .ok "oops" } ∧
    (500 : Nat) ≠ 200 ∧
    Get brokenEnv unmarshalNat (NewClient "api.example.com" "key") "/things?page=1"
      = .error ("API call failed with status: " ++ "500 Internal Server Error") ∧
    endPointWithPage "/things" 1 = "/things?page=1" ∧
    "/things?page=1"
      ∈ (GetList 3 brokenEnv unmarshalIDs (NewClient "api.example.com" "key") "/things").calls ∧
    (GetList 3 brokenEnv unmarshalIDs (NewClient "api.example.com" "key") "/things").result
      = some (.error ("API call failed with status: " ++ "500 Internal Server Error")) := by
  have hmem : "/things?page=1"
      ∈ (GetList 3 brokenEnv unmarshalIDs (NewClient "api.example.com" "key") "/things").calls := by
    have hc : (GetList 3 brokenEnv unmarshalIDs (NewClient "api.example.com" "key")
        "/things").calls = ["/things?page=0", "/things?page=1"] := rfl
    rw [hc]
    decide
  have h := non200_is_error brokenEnv unmarshalNat unmarshalIDs
    (NewClient "api.example.com" "key") "/things?page=1"
    { StatusCode := 500, Status := "500 Internal Server Error", Body := .ok "oops" }
    rfl rfl (by decide)
  exact ⟨rfl, rfl, by decide, h.1, rfl, hmem, h.2 3 "/things" 1 rfl hmem⟩

/-- C6: when `GetList` returns a list, the calls it made are the `Get` calls for pages
`0, 1, ..., k` in that order, page `n` on the endpoint with `&page=n` appended if the
endpoint holds a `?` and `?page=n` otherwise; every one of them succeeded; `k` is the
least index at which the items of pages `0..k` are not fewer than the total of page 0; the
list is the items of pages `0..k`; and when that total is 0 or the item count of page 0,
there is one call and the list is the items of page 0. -/
theorem getList_requests {K : Type} (env : Env)
    (U : String → Except String (listResponseType K)) (c : Client) (e : String)
    (fuel : Nat) (out : List K)
    (h : (GetList fuel env U c e).result = some (.ok out)) :
    ∃ (k : Nat) (d0 : listResponseType K),
      Get env U c (endPointWithPage e 0) = .ok d0 ∧
      (GetList fuel env U c e).calls
        = (List.range (k + 1)).map (fun n =>
            if Contains e "?" then e ++ "&page=" ++ Itoa n else e ++ "?page=" ++ Itoa n) ∧
      (∀ i, i ≤ k → ∃ d, Get env U c
        (if Contains e "?" then e ++ "&page=" ++ Itoa i else e ++ "?page=" ++ Itoa i) = .ok d) ∧
      out = accumulated env U c e k ∧
      d0.Total ≤ ((accumulated env U c e k).length : Int) ∧
      (∀ j, j < k → ((accumulated env U c e j).length : Int) < d0.Total) ∧
      ((d0.Total = 0 ∨ d0.Total = (d0.Items.length : Int)) →
        (GetList fuel env U c e).calls
            = [if Contains e "?" then e ++ "&page=" ++ Itoa 0 else e ++ "?page=" ++ Itoa 0] ∧
          out = d0.Items) := by
  cases hg0 : Get env U c (endPointWithPage e 0) with
  | error err =>
    simp only [GetList, hg0, Option.some.injEq] at h
    cases h
  | ok d0 =>
    have hacc : accumulated env U c e 0 = d0.Items := by
      simp only [accumulated, pageItems, hg0]
    have hrun : GetList fuel env U c e
        = GetList.follow env U c e d0.Total fuel 0 (accumulated env U c e 0)
            [endPointWithPage e 0] := by
      simp only [GetList, hg0, hacc]
    rw [hrun] at h ⊢
    obtain ⟨k, _, hcalls, hall, hout, hstop, hmin⟩ :=
      follow_ok env U c e d0.Total fuel 0 _ out h
    have hfun : (fun n => if Contains e "?" then e ++ "&page=" ++ Itoa n
        else e ++ "?page=" ++ Itoa n) = endPointWithPage e := rfl
    refine ⟨k, d0, rfl, ?_, ?_, hout, by omega, ?_, ?_⟩
    · rw [hcalls, hfun, List.range_eq_range', List.range'_succ]
      simp
    · intro i hi
      by_cases hi0 : i = 0
      · subst hi0
        exact ⟨d0, hg0⟩
      · exact hall i (by omega) hi
    · intro j hj
      have := hmin j (Nat.zero_le _) hj
      omega
    · intro hsingle
      have hT : ¬ d0.Total > ((accumulated env U c e 0).length : Int) := by
        rw [hacc]
        omega
      rw [follow_done env U c e d0.Total fuel 0 _ _ hT] at h ⊢
      simp only [Option.some.injEq, Except.ok.injEq] at h
      exact ⟨rfl, by rw [← h, hacc]⟩

/-- Witness for C6: the example of the specification; `GetList` returns the three items. -/
theorem getList_requests_witness :
    (GetList 1 listEnv unmarshalIDs (NewClient "api.example.com" "key") "/things").result
      = some (.ok [1, 2, 3]) ∧
    ∃ (k : Nat) (d0 : listResponseType Nat),
      Get listEnv unmarshalIDs (NewClient "api.example.com" "key")
        (endPointWithPage "/things" 0) = .ok d0 ∧
      (GetList 1 listEnv unmarshalIDs (NewClient "api.example.com" "key") "/things").calls
        = (List.range (k + 1)).map (fun n =>
            if Contains "/things" "?" then "/things" ++ "&page=" ++ Itoa n
            else "/things" ++ "?page=" ++ Itoa n) ∧
      (∀ i, i ≤ k → ∃ d, Get listEnv unmarshalIDs (NewClient "api.example.com" "key")
        (if Contains "/things" "?" then "/things" ++ "&page=" ++ Itoa i
          else "/things" ++ "?page=" ++ Itoa i) = .ok d) ∧
      [1, 2, 3] = accumulated listEnv unmarshalIDs (NewClient "api.example.com" "key")
        "/things" k ∧
      d0.Total ≤ ((accumulated listEnv unmarshalIDs (NewClient "api.example.com" "key")
        "/things" k).length : Int) ∧
      (∀ j, j < k → ((accumulated listEnv unmarshalIDs (NewClient "api.example.com" "key")
        "/things" j).length : Int) < d0.Total) ∧
      ((d0.Total = 0 ∨ d0.Total = (d0.Items.length : Int)) →
        (GetList 1 listEnv unmarshalIDs (NewClient "api.example.com" "key") "/things").calls
            = [if Contains "/things" "?" then "/things" ++ "&page=" ++ Itoa 0
                else "/things" ++ "?page=" ++ Itoa 0] ∧
          [1, 2, 3] = d0.Items) :=
  ⟨rfl, getList_requests listEnv unmarshalIDs (NewClient "api.example.com" "key") "/things"
    1 [1, 2, 3] rfl⟩

/-- C10: when every page after page 0 that is fetched with success holds an item, each
successful iteration lowers `T - len(items)`, and `GetList` returns: at once with the
error of page 0, or, page 0 holding `n0` items with total `T`, within `max(0, T - n0)`
iterations and with `1 + max(0, T - n0)` calls at most, the same result under every
larger bound. -/
theorem getList_terminates {K : Type} (env : Env)
    (U : String → Except String (listResponseType K)) (c : Client) (e : String)
    (hne : ∀ n, 1 ≤ n → ∀ d, Get env U c (endPointWithPage e n) = .ok d → d.Items ≠ []) :
    (∀ (n : Nat) (d : listResponseType K) (T : Int),
      Get env U c (endPointWithPage e (n + 1)) = .ok d →
      T - ((accumulated env U c e (n + 1)).length : Int)
        < T - ((accumulated env U c e n).length : Int)) ∧
    (∀ err, Get env U c (endPointWithPage e 0) = .error err →
      ∀ fuel, GetList fuel env U c e
        = { calls := [endPointWithPage e 0], result := some (.error err) }) ∧
    (∀ d0, Get env U c (endPointWithPage e 0) = .ok d0 →
      ∃ r, ∀ fuel : Nat, max 0 (d0.Total - (d0.Items.length : Int)) ≤ (fuel : Int) →
        (GetList fuel env U c e).result = some r ∧
        ((GetList fuel env U c e).calls.length : Int)
          ≤ 1 + max 0 (d0.Total - (d0.Items.length : Int))) := by
  refine ⟨?_, ?_, ?_⟩
  · intro n d T hg
    have hd : d.Items ≠ [] := hne (n + 1) (by omega) d hg
    have hlen : 0 < d.Items.length := List.length_pos.mpr hd
    rw [accumulated_succ_of_ok env U c e n d hg]
    simp only [List.length_append, Nat.cast_add]
    omega
  · intro err hg0 fuel
    simp only [GetList, hg0]
  · intro d0 hg0
    have hrun : ∀ fuel, GetList fuel env U c e
        = GetList.follow env U c e d0.Total fuel 0 d0.Items [endPointWithPage e 0] := by
      intro fuel
      simp only [GetList, hg0]
    have hmax : max 0 (d0.Total - (d0.Items.length : Int))
        = (((d0.Total - (d0.Items.length : Int)).toNat : Nat) : Int) := by
      rw [Int.toNat_eq_max, max_comm]
    obtain ⟨⟨r, hr⟩, hc⟩ := follow_terminates env U c e d0.Total hne
      (d0.Total - (d0.Items.length : Int)).toNat 0 d0.Items [endPointWithPage e 0] (le_refl _)
    refine ⟨r, fun fuel hfuel => ?_⟩
    rw [hmax] at hfuel ⊢
    have hle : (d0.Total - (d0.Items.length : Int)).toNat ≤ fuel := by exact_mod_cast hfuel
    rw [hrun, follow_mono env U c e d0.Total _ 0 d0.Items _ r hr fuel hle]
    refine ⟨hr, ?_⟩
    simp only [List.length_singleton] at hc
    have : ((GetList.follow env U c e d0.Total (d0.Total - (d0.Items.length : Int)).toNat 0
        d0.Items [endPointWithPage e 0]).calls.length : Int)
        ≤ ((1 + (d0.Total - (d0.Items.length : Int)).toNat : Nat) : Int) := by
      exact_mod_cast hc
    simpa using this

/-- Witness for C10: the example of the specification, whose pages 0 and 1 hold items and
whose other pages fail. -/
theorem getList_terminates_witness :
    (∀ n, 1 ≤ n → ∀ d, Get listEnv unmarshalIDs (NewClient "api.example.com" "key")
      (endPointWithPage "/things" n) = .ok d → d.Items ≠ []) ∧
    (GetList 2 listEnv unmarshalIDs (NewClient "api.example.com" "key") "/things").result
      = some (.ok [1, 2, 3]) ∧
    ∃ r, ∀ fuel : Nat, max 0 ((3 : Int) - (([1] : List Nat).length : Int)) ≤ (fuel : Int) →
      (GetList fuel listEnv unmarshalIDs (NewClient "api.example.com" "key") "/things").result
        = some r ∧
      ((GetList fuel listEnv unmarshalIDs (NewClient "api.example.com" "key")
          "/things").calls.length : Int)
        ≤ 1 + max 0 ((3 : Int) - (([1] : List Nat).length : Int)) := by
  have hne : ∀ n, 1 ≤ n → ∀ d, Get listEnv unmarshalIDs (NewClient "api.example.com" "key")
      (endPointWithPage "/things" n) = .ok d → d.Items ≠ [] := by
    intro n _ d h
    rcases get_listEnv _ _ d h with rfl | rfl <;> simp
  exact ⟨hne, rfl,
    (getList_terminates listEnv unmarshalIDs (NewClient "api.example.com" "key") "/things"
      hne).2.2 { Items := [1], Total := 3 } rfl⟩

end Bobuild
